import Mathlib

/-!
Verification of the mysql-sniffer core (mysql-sniffer.go) against its
specification.  Byte strings from the Go source ([]byte and string values,
all ASCII in the behaviours verified here) are modelled as `List Nat` of
byte values.  Every definition is a direct shallow embedding of the
corresponding Go function; loops with an index are rendered as structural
recursions over the unscanned suffix so that everything evaluates inside
the kernel.
-/

/-- Byte string of an ASCII Lean string literal. -/
def strBytes (s : String) : List Nat := s.data.map Char.toNat

-- Token type constants from the Go source.
def TOKEN_WORD : Nat := 0

def TOKEN_QUOTE : Nat := 1

def TOKEN_NUMBER : Nat := 2

def TOKEN_WHITESPACE : Nat := 3

def TOKEN_OTHER : Nat := 4

def COM_QUERY : Nat := 3

/-- Scan inside a quote token (source lines 509-526): `delim` is the opening
byte (39 or 34), `escaped` is the escape flag, the result is the number of
bytes consumed after the opening delimiter (the closing delimiter included
when found). -/
def scanQuote (delim : Nat) (escaped : Bool) : List Nat → Nat
  | [] => 0
  | c :: cs =>
    if c = delim then
      if escaped then 1 + scanQuote delim false cs
      else 1
    else if c = 92 then 1 + scanQuote delim true cs
    else 1 + scanQuote delim false cs

/-- Length of the longest prefix whose bytes all satisfy `p` (the shape of
the number / whitespace / word continuation loops in scanToken). -/
def takeWhileLen (p : Nat → Bool) : List Nat → Nat
  | [] => 0
  | c :: cs => if p c then 1 + takeWhileLen p cs else 0

def isDigitB (c : Nat) : Bool := decide (48 ≤ c ∧ c ≤ 57)

def isWSB (c : Nat) : Bool := decide (c = 32 ∨ (9 ≤ c ∧ c ≤ 13))

def isAlphaB (c : Nat) : Bool := decide ((65 ≤ c ∧ c ≤ 90) ∨ (97 ≤ c ∧ c ≤ 122))

def isWordB (c : Nat) : Bool := isDigitB c || isAlphaB c || decide (c = 36) || decide (c = 95)

/-- Core of scanToken (source lines 497-572) on first byte `c` and remaining
bytes `cs`: returns (extra length beyond the first byte, token type), so the
token length reported by scanToken is the first component plus one. -/
def scanTail (c : Nat) (cs : List Nat) : Nat × Nat :=
  if c = 39 ∨ c = 34 then (scanQuote c false cs, TOKEN_QUOTE)
  else if isDigitB c then (takeWhileLen isDigitB cs, TOKEN_NUMBER)
  else if isWSB c then (takeWhileLen isWSB cs, TOKEN_WHITESPACE)
  else if isAlphaB c then (takeWhileLen isWordB cs, TOKEN_WORD)
  else (0, TOKEN_OTHER)

/-- scanToken with the default flags (verbose = false, noclean = false), so
the `verbose && noclean` shortcut of source lines 503-505 never fires.  The
source aborts on empty input; the empty case here is never reached by
cleanupQuery. -/
def scanToken : List Nat → Nat × Nat
  | [] => (0, TOKEN_OTHER)
  | c :: cs => let r := scanTail c cs; (r.1 + 1, r.2)

/-- Output token of one cleanupQuery loop iteration (source lines 577-595):
WORD and OTHER are kept verbatim, NUMBER and QUOTE become "?", whitespace
becomes a single space. -/
def tokenOut (q : List Nat) (len ty : Nat) : List Nat :=
  if ty = TOKEN_WORD ∨ ty = TOKEN_OTHER then q.take len
  else if ty = TOKEN_WHITESPACE then [32]
  else [63]

/-- Fuelled tokenization loop of cleanupQuery; each iteration consumes at
least one byte, so fuel = input length is always enough. -/
def cleanupTokensF : Nat → List Nat → List (List Nat)
  | 0, _ => []
  | _, [] => []
  | fuel + 1, c :: cs =>
    let r := scanTail c cs
    tokenOut (c :: cs) (r.1 + 1) r.2 :: cleanupTokensF fuel (cs.drop r.1)

def cleanupTokens (q : List Nat) : List (List Nat) := cleanupTokensF q.length q

/-- First split of `strings.SplitN(s, sep, n)` for a one-byte separator:
the part before the first separator and the rest, or none. -/
def splitOnceAt (sep : Nat) : List Nat → Option (List Nat × List Nat)
  | [] => none
  | c :: cs =>
    if c = sep then some ([], cs)
    else match splitOnceAt sep cs with
         | none => none
         | some (l, r) => some (c :: l, r)

/-- Go `strings.SplitN(s, sep, n)` for a single-byte separator and n > 0:
at most `n` parts, the last part unsplit. -/
def splitN (s : List Nat) (sep : Nat) : Nat → List (List Nat)
  | 0 => []
  | 1 => [s]
  | n + 2 =>
    match splitOnceAt sep s with
    | none => [s]
    | some (l, r) => l :: splitN r sep (n + 1)

/-- Go `strings.Replace(tmp, "?, ", "", -1)`: remove every occurrence of
the bytes 63, 44, 32 ("?, ") scanning left to right, resuming after each
removal. -/
def stripQC : List Nat → List Nat
  | 63 :: 44 :: 32 :: rest => stripQC rest
  | c :: cs => c :: stripQC cs
  | [] => []

/-- Route-comment rewrite condition of cleanupQuery (source lines 600-605)
on the joined token string. -/
def routeCond (tmp : List Nat) : Prop :=
  let parts := splitN tmp 32 5
  5 ≤ parts.length ∧ parts.getD 1 [] = strBytes "/*" ∧
    parts.getD 3 [] = strBytes "*/" ∧ (parts.getD 2 []).contains 58 = true

instance (tmp : List Nat) : Decidable (routeCond tmp) := by
  unfold routeCond; infer_instance

/-- Route-comment rewrite of cleanupQuery (source lines 600-605): strip the
hostname prefix before the first colon (byte 58) of the route part. -/
def routeRewrite (tmp : List Nat) : List Nat :=
  let parts := splitN tmp 32 5
  if routeCond tmp then
    parts.getD 0 [] ++ strBytes " /* " ++ (splitN (parts.getD 2 []) 58 2).getD 1 [] ++
      strBytes " */ " ++ parts.getD 4 []
  else tmp

/-- cleanupQuery (source lines 574-608) with default flags: tokenize and
rewrite each token, join, normalize the route comment, remove "?, ". -/
def cleanupQuery (query : List Nat) : List Nat :=
  stripQC (routeRewrite (cleanupTokens query).flatten)

/-- Sum of the first three bytes as a 24-bit little-endian length, as
computed in carvePacket (source line 415). -/
def carveSize (buf : List Nat) : Nat :=
  buf.getD 0 0 + buf.getD 1 0 * 256 + buf.getD 2 0 * 65536

/-- carvePacket (source lines 409-434).  The result is (ptype, data, buffer
after the call); the buffer is an `Option` because the source distinguishes
a nil slice (`none`) from a non-empty remainder.  On an incomplete packet
the source returns (-1, nil) without touching the buffer. -/
def carvePacket (buf : List Nat) : Int × List Nat × Option (List Nat) :=
  let datalen := buf.length
  if datalen < 5 then (-1, [], some buf)
  else
    let size := carveSize buf
    if size = 0 ∨ datalen < size + 4 then (-1, [], some buf)
    else
      let endp := size + 4
      let ptype := buf.getD 4 0
      let data := (buf.drop 5).take (size - 1)
      let newbuf := if datalen ≤ endp then none else some (buf.drop endp)
      ((ptype : Int), data, newbuf)

/-!  Format program (source lines 56-61, 358-396, 613-664). -/

/-- One item of the compiled format program: a literal string or one of the
four action tags F_QUERY, F_ROUTE, F_SOURCE, F_SOURCEIP.  F_NONE never
reaches the compiled program (it aborts evaluation in the source). -/
inductive FormatItem where
  | lit : List Nat → FormatItem
  | fquery : FormatItem
  | froute : FormatItem
  | fsource : FormatItem
  | fsourceip : FormatItem
deriving DecidableEq

/-- F_ROUTE evaluation (source lines 370-383): extract the route from a
`SELECT /* hostname:route */ ...` comment, else tag the canonicalized query
with "(unknown) ". -/
def routeText (pdata : List Nat) : List Nat :=
  let parts := splitN pdata 32 5
  if 4 ≤ parts.length ∧ parts.getD 1 [] = strBytes "/*" ∧ parts.getD 3 [] = strBytes "*/" then
    if (parts.getD 2 []).contains 58 then (splitN (parts.getD 2 []) 58 2).getD 1 []
    else parts.getD 2 []
  else strBytes "(unknown) " ++ cleanupQuery pdata

/-- Per-flow stream state (source lines 74-85).  The two buffers are
`Option` valued because the source distinguishes nil from non-nil slices;
`qdata` holds the aggregation key of the current in-flight request (the
source stores a pointer into the qbuf map, modelled here by the map key,
which is never removed from the map). -/
structure source where
  src : List Nat
  srcip : List Nat
  synced : Bool
  reqbuffer : Option (List Nat)
  resbuffer : Option (List Nat)
  reqSent : Option Nat
  reqTimes : Nat → Nat
  qbytes : Nat
  qdata : Option (List Nat)
  qtext : List Nat

/-- Aggregation row (source lines 87-91). -/
structure queryData where
  count : Nat
  bytes : Nat
  times : Nat → Nat

/-- Global statistics counters touched by processPacket (source lines
104-111; the streams counter is only touched by handlePacket). -/
structure Stats where
  rcvd : Nat
  rcvd_sync : Nat
  desyncs : Nat
deriving DecidableEq

/-- Global mutable state read and written by processPacket, together with
the stream state of the single flow: the qbuf aggregation map (modelled as an
association list), the global reservoir, and the query counter. -/
structure SnifferState where
  rs : source
  stats : Stats
  times : Nat → Nat
  querycount : Nat
  qbuf : List (List Nat × queryData)

/-- Run-time configuration relevant to processPacket: the compiled format
program and the -u (dirty) flag. -/
structure Config where
  format : List FormatItem
  dirty : Bool

def qbufGet (q : List (List Nat × queryData)) (k : List Nat) : Option queryData :=
  match q with
  | [] => none
  | (k', d) :: rest => if k' = k then some d else qbufGet rest k

def qbufSet (q : List (List Nat × queryData)) (k : List Nat) (d : queryData) :
    List (List Nat × queryData) :=
  match q with
  | [] => [(k, d)]
  | (k', d') :: rest => if k' = k then (k, d) :: rest else (k', d') :: qbufSet rest k d

/-- Pointwise reservoir update (an array write in the source). -/
def updF (f : Nat → Nat) (i v : Nat) : Nat → Nat := fun j => if j = i then v else f j

/-- Evaluation of one format item (the switch at source lines 358-395). -/
def evalItem (cfg : Config) (rs : source) (pdata : List Nat) : FormatItem → List Nat
  | .lit s => s
  | .fquery => if cfg.dirty then pdata else cleanupQuery pdata
  | .froute => routeText pdata
  | .fsource => rs.src
  | .fsourceip => rs.srcip

/-- The aggregation key built for a request (the `text` accumulation loop of
source lines 356-396). -/
def evalFormat (cfg : Config) (rs : source) (pdata : List Nat) : List Nat :=
  (cfg.format.map (evalItem cfg rs pdata)).flatten

/-- processPacket (source lines 262-405).  `now` is the current clock in
nanoseconds and `randn` the reservoir slot picked by the RNG for this
packet; the verbose log output is not modelled. -/
def processPacket (cfg : Config) (st : SnifferState) (request : Bool) (data : List Nat)
    (now : Nat) (randn : Nat) : SnifferState :=
  let stats0 : Stats :=
    { st.stats with
      rcvd := st.stats.rcvd + 1
      rcvd_sync := if st.rs.synced then st.stats.rcvd_sync + 1 else st.stats.rcvd_sync }
  let desyncNow : Bool := request && st.rs.resbuffer.isSome
  let stats1 : Stats := if desyncNow then { stats0 with desyncs := stats0.desyncs + 1 } else stats0
  let rs0 : source := if desyncNow then { st.rs with resbuffer := none, synced := false } else st.rs
  let carved := carvePacket data
  let ptype : Int := if request then carved.1 else 0
  let pdata : List Nat := if request then carved.2.1 else data
  let rs1 : source :=
    if request then { rs0 with reqbuffer := carved.2.2 }
    else { rs0 with resbuffer := none }
  if !rs1.synced && !(request && ptype == 3) then
    { st with rs := { rs1 with reqbuffer := none, resbuffer := none }, stats := stats1 }
  else
    let rs2 : source := if rs1.synced then rs1 else { rs1 with synced := true }
    if ptype == -1 then { st with rs := rs2, stats := stats1 }
    else
      let plen := pdata.length
      if request then
        let rs3 : source := { rs2 with reqSent := some now }
        let text := evalFormat cfg rs3 pdata
        let qd := (qbufGet st.qbuf text).getD { count := 0, bytes := 0, times := fun _ => 0 }
        let qbuf' := qbufSet st.qbuf text { qd with count := qd.count + 1, bytes := qd.bytes + plen }
        { st with
          rs := { rs3 with qtext := text, qdata := some text, qbytes := plen }
          stats := stats1
          querycount := st.querycount + 1
          qbuf := qbuf' }
      else
        match rs2.reqSent with
        | none =>
          let qbuf' :=
            match rs2.qdata with
            | some k =>
              match qbufGet st.qbuf k with
              | some qd => qbufSet st.qbuf k { qd with bytes := qd.bytes + plen }
              | none => st.qbuf
            | none => st.qbuf
          { st with rs := rs2, stats := stats1, qbuf := qbuf' }
        | some t0 =>
          let reqtime := now - t0
          let rs3 : source :=
            { rs2 with reqTimes := updF rs2.reqTimes randn reqtime, reqSent := none }
          let qbuf' :=
            match rs2.qdata with
            | some k =>
              match qbufGet st.qbuf k with
              | some qd =>
                qbufSet st.qbuf k
                  { qd with times := updF qd.times randn reqtime, bytes := qd.bytes + plen }
              | none => st.qbuf
            | none => st.qbuf
          { st with
            rs := rs3
            stats := stats1
            times := updF st.times randn reqtime
            qbuf := qbuf' }

/-- A fresh flow record as created by handlePacket (source line 485): only
src and srcip set, synced false, every other field zero. -/
def initSource (src srcip : List Nat) : source :=
  { src := src, srcip := srcip, synced := false, reqbuffer := none, resbuffer := none,
    reqSent := none, reqTimes := fun _ => 0, qbytes := 0, qdata := none, qtext := [] }

/-- Process start state for a single flow: zeroed counters, empty qbuf,
zeroed global reservoir. -/
def initState (src srcip : List Nat) : SnifferState :=
  { rs := initSource src srcip, stats := { rcvd := 0, rcvd_sync := 0, desyncs := 0 },
    times := fun _ => 0, querycount := 0, qbuf := [] }

/-- One captured TCP payload as handed to processPacket, together with the
clock and RNG draw of that step. -/
structure PktIn where
  request : Bool
  data : List Nat
  now : Nat
  randn : Nat

def runPackets (cfg : Config) (st : SnifferState) (ps : List PktIn) : SnifferState :=
  ps.foldl (fun s p => processPacket cfg s p.request p.data p.now p.randn) st

/-!  parseFormat (source lines 613-664) and calculateTimes (174-198). -/

/-- ASCII model of the Go `strings.TrimSpace` whitespace class. -/
def isGoSpace (c : Nat) : Bool := decide (c = 32 ∨ (9 ≤ c ∧ c ≤ 13))

def trimSpace (s : List Nat) : List Nat :=
  ((s.dropWhile isGoSpace).reverse.dropWhile isGoSpace).reverse

def toLowerB (c : Nat) : Nat := if 65 ≤ c ∧ c ≤ 90 then c + 32 else c

/-- Accumulator of the parseFormat loop: items emitted so far, the
`is_special` flag, and the pending literal `curstr`. -/
structure PFAcc where
  items : List FormatItem
  special : Bool
  curstr : List Nat

/-- One iteration of the parseFormat character loop (source lines 622-660). -/
def pfStep (acc : PFAcc) (c : Nat) : PFAcc :=
  if c = 35 then
    if acc.special then { acc with curstr := acc.curstr ++ [35], special := false }
    else { acc with special := true }
  else
    let tag : Option FormatItem :=
      if acc.special then
        if toLowerB c = 115 then some .fsource
        else if toLowerB c = 105 then some .fsourceip
        else if toLowerB c = 114 then some .froute
        else if toLowerB c = 113 then some .fquery
        else none
      else none
    let acc1 : PFAcc :=
      if acc.special then
        match tag with
        | some _ => { acc with special := false }
        | none => { acc with curstr := acc.curstr ++ [35, c], special := false }
      else { acc with curstr := acc.curstr ++ [c] }
    match tag with
    | none => acc1
    | some t =>
      if acc1.curstr ≠ [] then { items := acc1.items ++ [.lit acc1.curstr, t], special := acc1.special, curstr := [] }
      else { acc1 with items := acc1.items ++ [t] }

/-- parseFormat (source lines 613-664), returning the compiled format
program instead of appending to the global. -/
def parseFormat (formatstr : List Nat) : List FormatItem :=
  let fs := trimSpace formatstr
  let fs := if fs = [] then strBytes "#b:#k" else fs
  let acc := fs.foldl pfStep { items := [], special := false, curstr := [] }
  if acc.curstr ≠ [] then acc.items ++ [.lit acc.curstr] else acc.items

/-- Loop state of calculateTimes: (counts, total, min, max, has_min). -/
structure CalcAcc where
  counts : Nat
  total : Nat
  min : Nat
  max : Nat
  has_min : Bool

/-- One iteration of the calculateTimes loop (source lines 177-192): zero
slots are skipped as uninitialized readings. -/
def calcStep (acc : CalcAcc) (val : Nat) : CalcAcc :=
  if val = 0 then acc
  else
    let acc := if val < acc.min ∨ acc.has_min = false then { acc with has_min := true, min := val } else acc
    let acc := if acc.max < val then { acc with max := val } else acc
    { acc with counts := acc.counts + 1, total := acc.total + val }

/-- calculateTimes (source lines 174-198).  The reservoir array is modelled
as a list of its slots; the float64 results are modelled as exact rationals
(ns / 1e6 gives milliseconds). -/
def calculateTimes (timings : List Nat) : ℚ × ℚ × ℚ :=
  let acc := timings.foldl calcStep { counts := 0, total := 0, min := 0, max := 0, has_min := false }
  let avg := if 0 < acc.counts then acc.total / acc.counts else 0
  ((acc.min : ℚ) / 1000000, (avg : ℚ) / 1000000, (acc.max : ℚ) / 1000000)

/-!  Vocabulary used by the claim statements, and concrete fixtures used by
the witnesses below. -/

/-- Position j in the bytes after the opening delimiter closes the quote:
it holds the delimiter and is not preceded by a backslash (92).  In this
scanner a byte counts as escaped exactly when the byte before it is a
backslash. -/
def qclosed (delim : Nat) (cs : List Nat) (j : Nat) : Prop :=
  cs.getD j 0 = delim ∧ (j = 0 ∨ cs.getD (j - 1) 0 ≠ 92)

/-- Generalization of `qclosed` to a pending escape flag for the first
position, used to follow the scanner loop. -/
def closedE (delim : Nat) (esc : Bool) (cs : List Nat) (j : Nat) : Prop :=
  cs.getD j 0 = delim ∧ (if j = 0 then esc = false else cs.getD (j - 1) 0 ≠ 92)

/-- The reservoir slots that hold a reading (zero is the sentinel for an
empty slot and is skipped by calculateTimes). -/
def nonzeroSlots (l : List Nat) : List Nat := l.filter (fun v => decide (v ≠ 0))

/-- Fixture: a format program consisting of the single QUERY tag. -/
def cfgQonly : Config := { format := [FormatItem.fquery], dirty := false }

/-- Fixture: a fresh flow for one client. -/
def stFresh : SnifferState := initState (strBytes "1.2.3.4:5") (strBytes "1.2.3.4")

/-- Fixture: the fresh flow after one full COM_QUERY request frame. -/
def stC4a : SnifferState := processPacket cfgQonly stFresh true [2, 0, 0, 0, 3, 97] 100 0

/-- Fixture: the same flow after a second full COM_QUERY request frame with
no intervening response. -/
def stC4b : SnifferState := processPacket cfgQonly stC4a true [2, 0, 0, 0, 3, 97] 200 1

/-!  Helper lemmas. -/

lemma carvePacket_complete (L0 L1 L2 seq cmd : Nat) (P rest : List Nat)
    (h0 : L0 < 256) (h1 : L1 < 256) (h2 : L2 < 256)
    (hL : L0 + L1 * 256 + L2 * 65536 = P.length + 1) :
    carvePacket (L0 :: L1 :: L2 :: seq :: cmd :: (P ++ rest)) =
      ((cmd : Int), P, if rest = [] then none else some rest) := by
  have hsize : carveSize (L0 :: L1 :: L2 :: seq :: cmd :: (P ++ rest)) = P.length + 1 := by
    simpa [carveSize, List.getD] using hL
  have hdl : (L0 :: L1 :: L2 :: seq :: cmd :: (P ++ rest)).length = P.length + rest.length + 5 := by
    simp [List.length_append]
  have hdata : ((L0 :: L1 :: L2 :: seq :: cmd :: (P ++ rest)).drop 5).take (P.length + 1 - 1) = P := by
    simp [List.take_left]
  have hget : (L0 :: L1 :: L2 :: seq :: cmd :: (P ++ rest)).getD 4 0 = cmd := by simp [List.getD]
  have hdrop : (L0 :: L1 :: L2 :: seq :: cmd :: (P ++ rest)).drop (P.length + 1 + 4) = rest := by
    rw [show P.length + 1 + 4 = P.length + 5 from by omega, ← List.drop_drop]
    simp [List.drop_left]
  unfold carvePacket
  rw [hsize, hdl]
  rw [if_neg (by omega), if_neg (by omega)]
  simp only [hget, hdata, hdrop]
  by_cases hr : rest = []
  · subst hr
    simp
  · have hrl : rest.length ≠ 0 := by simpa using hr
    rw [if_neg (by omega), if_neg hr]

lemma carvePacket_incomplete (buf : List Nat)
    (h : buf.length < 5 ∨ carveSize buf = 0 ∨ buf.length < carveSize buf + 4) :
    carvePacket buf = (-1, [], some buf) := by
  unfold carvePacket
  by_cases h5 : buf.length < 5
  · rw [if_pos h5]
  · rw [if_neg h5, if_pos ?_]
    rcases h with h | h | h
    · exact absurd h h5
    · exact Or.inl h
    · exact Or.inr h

lemma splitOnceAt_spec (sep : Nat) (pre post : List Nat) (h : pre.contains sep = false) :
    splitOnceAt sep (pre ++ sep :: post) = some (pre, post) := by
  induction pre with
  | nil => simp [splitOnceAt]
  | cons c cs ih =>
    have hc : ¬ sep = c ∧ sep ∉ cs := by simpa using h
    have hcn : ¬ c = sep := fun he => hc.1 he.symm
    simp only [List.cons_append, splitOnceAt, List.append_eq]
    rw [if_neg hcn, ih (by simpa using hc.2)]

lemma splitN_colon (pre post : List Nat) (sep : Nat) (h : pre.contains sep = false) :
    splitN (pre ++ sep :: post) sep 2 = [pre, post] := by
  show splitN (pre ++ sep :: post) sep (0 + 2) = [pre, post]
  rw [splitN, splitOnceAt_spec sep pre post h]
  rfl

lemma closedE_false_iff (delim : Nat) (cs : List Nat) (j : Nat) :
    closedE delim false cs j ↔ qclosed delim cs j := by
  unfold closedE qclosed
  by_cases hj : j = 0 <;> simp [hj]

lemma closedE_shift (delim c : Nat) (esc : Bool) (cs : List Nat) (k : Nat) :
    closedE delim esc (c :: cs) (k + 1) ↔ closedE delim (decide (c = 92)) cs k := by
  unfold closedE
  cases k with
  | zero => simp [List.getD]
  | succ m => simp [List.getD]

lemma scanQuote_cons (delim c : Nat) (esc : Bool) (cs : List Nat) (hdn : delim ≠ 92)
    (h : ¬(c = delim ∧ esc = false)) :
    scanQuote delim esc (c :: cs) = 1 + scanQuote delim (decide (c = 92)) cs := by
  by_cases hc : c = delim
  · have hesc : esc = true := by
      cases esc
      · exact absurd ⟨hc, rfl⟩ h
      · rfl
    subst hc hesc
    simp [scanQuote, hdn]
  · by_cases h92 : c = 92 <;> simp [scanQuote, hc, h92, Ne.symm hdn]

lemma scanQuote_spec (delim : Nat) (hdn : delim ≠ 92) :
    ∀ (cs : List Nat) (esc : Bool),
      (∃ j, j < cs.length ∧ closedE delim esc cs j ∧ (∀ k, k < j → ¬closedE delim esc cs k) ∧
        scanQuote delim esc cs = j + 1) ∨
      ((∀ k, k < cs.length → ¬closedE delim esc cs k) ∧ scanQuote delim esc cs = cs.length) := by
  intro cs
  induction cs with
  | nil =>
    intro esc
    right
    exact ⟨fun k hk => absurd hk (by simp), rfl⟩
  | cons c cs ih =>
    intro esc
    by_cases h0 : c = delim ∧ esc = false
    · left
      refine ⟨0, by simp, ⟨by simp [List.getD, h0.1], by simp [h0.2]⟩, fun k hk => absurd hk (by omega), ?_⟩
      simp [scanQuote, h0.1, h0.2]
    · have hnot0 : ¬closedE delim esc (c :: cs) 0 := by
        unfold closedE
        simp only [List.getD]
        intro hcl
        exact h0 ⟨by simpa using hcl.1, by simpa using hcl.2⟩
      have hsq := scanQuote_cons delim c esc cs hdn h0
      rcases ih (decide (c = 92)) with ⟨j, hj, hcl, hmin, hlen⟩ | ⟨hnone, hlen⟩
      · left
        refine ⟨j + 1, by simp; omega, (closedE_shift delim c esc cs j).mpr hcl, ?_, ?_⟩
        · intro k hk
          cases k with
          | zero => exact hnot0
          | succ m =>
            rw [closedE_shift]
            exact hmin m (by omega)
        · rw [hsq, hlen]
          omega
      · right
        refine ⟨?_, ?_⟩
        · intro k hk
          cases k with
          | zero => exact hnot0
          | succ m =>
            rw [closedE_shift]
            exact hnone m (by simpa using hk)
        · rw [hsq, hlen]
          simp only [List.length_cons]
          omega

lemma calcFold_spec (l : List Nat) :
    (l.foldl calcStep { counts := 0, total := 0, min := 0, max := 0, has_min := false }).counts =
      (nonzeroSlots l).length ∧
    (l.foldl calcStep { counts := 0, total := 0, min := 0, max := 0, has_min := false }).total =
      (nonzeroSlots l).sum ∧
    (nonzeroSlots l = [] →
      l.foldl calcStep { counts := 0, total := 0, min := 0, max := 0, has_min := false } =
        { counts := 0, total := 0, min := 0, max := 0, has_min := false }) ∧
    (nonzeroSlots l ≠ [] →
      (l.foldl calcStep { counts := 0, total := 0, min := 0, max := 0, has_min := false }).has_min = true ∧
      (l.foldl calcStep { counts := 0, total := 0, min := 0, max := 0, has_min := false }).min ∈ nonzeroSlots l ∧
      (∀ y ∈ nonzeroSlots l,
        (l.foldl calcStep { counts := 0, total := 0, min := 0, max := 0, has_min := false }).min ≤ y) ∧
      (l.foldl calcStep { counts := 0, total := 0, min := 0, max := 0, has_min := false }).max ∈ nonzeroSlots l ∧
      (∀ y ∈ nonzeroSlots l,
        y ≤ (l.foldl calcStep { counts := 0, total := 0, min := 0, max := 0, has_min := false }).max)) := by
  induction l using List.reverseRecOn with
  | nil => exact ⟨rfl, rfl, fun _ => rfl, fun h => absurd rfl h⟩
  | append_singleton l a ih =>
    have hfl : (l ++ [a]).foldl calcStep
          { counts := 0, total := 0, min := 0, max := 0, has_min := false } =
        calcStep (l.foldl calcStep { counts := 0, total := 0, min := 0, max := 0, has_min := false }) a := by
      rw [List.foldl_append]
      rfl
    have hnz : nonzeroSlots (l ++ [a]) = nonzeroSlots l ++ (if a ≠ 0 then [a] else []) := by
      unfold nonzeroSlots
      rw [List.filter_append]
      by_cases ha : a = 0 <;> simp [ha]
    rcases ih with ⟨ihc, iht, ihe, ihn⟩
    by_cases ha : a = 0
    · have hstep : calcStep (l.foldl calcStep { counts := 0, total := 0, min := 0, max := 0, has_min := false }) a =
          l.foldl calcStep { counts := 0, total := 0, min := 0, max := 0, has_min := false } := by
        rw [calcStep, if_pos ha]
      rw [hfl, hstep, hnz, if_neg (by simpa using ha)]
      exact ⟨by simpa using ihc, by simpa using iht, by simpa using ihe, by simpa using ihn⟩
    · rw [hfl, hnz, if_pos ha]
      by_cases hemp : nonzeroSlots l = []
      · rw [ihe hemp, hemp]
        have hstep : calcStep { counts := 0, total := 0, min := 0, max := 0, has_min := false } a =
            { counts := 1, total := a, min := a, max := a, has_min := true } := by
          simp [calcStep, ha, Nat.pos_of_ne_zero ha]
        rw [hstep]
        exact ⟨by simp, by simp, by simp, fun _ => ⟨rfl, by simp, by simp, by simp, by simp⟩⟩
      · rcases ihn hemp with ⟨hhm, hminm, hminle, hmaxm, hmaxle⟩
        rcases hacc : l.foldl calcStep { counts := 0, total := 0, min := 0, max := 0, has_min := false }
          with ⟨c0, t0, mn0, mx0, hm0⟩
        rw [hacc] at ihc iht hhm hminm hminle hmaxm hmaxle
        simp only at ihc iht hhm hminm hminle hmaxm hmaxle
        subst hhm
        have hstep : calcStep { counts := c0, total := t0, min := mn0, max := mx0, has_min := true } a =
            { counts := c0 + 1, total := t0 + a,
              min := if a < mn0 then a else mn0,
              max := if mx0 < a then a else mx0, has_min := true } := by
          by_cases hlt : a < mn0 <;> by_cases hmx : mx0 < a <;>
            simp [calcStep, ha, hlt, hmx]
        rw [hstep]
        refine ⟨by simpa using ihc, ?_, by simp, fun _ => ⟨rfl, ?_, ?_, ?_, ?_⟩⟩
        · simp [iht]
        · by_cases hlt : a < mn0
          · rw [if_pos hlt]
            exact List.mem_append.mpr (Or.inr (by simp))
          · rw [if_neg hlt]
            exact List.mem_append.mpr (Or.inl hminm)
        · intro y hy
          rcases List.mem_append.mp hy with hy | hy
          · by_cases hlt : a < mn0
            · rw [if_pos hlt]
              exact le_of_lt (lt_of_lt_of_le hlt (hminle y hy))
            · rw [if_neg hlt]
              exact hminle y hy
          · have hya : y = a := by simpa using hy
            rw [hya]
            by_cases hlt : a < mn0
            · rw [if_pos hlt]
            · rw [if_neg hlt]
              simp
              omega
        · by_cases hmx : mx0 < a
          · rw [if_pos hmx]
            exact List.mem_append.mpr (Or.inr (by simp))
          · rw [if_neg hmx]
            exact List.mem_append.mpr (Or.inl hmaxm)
        · intro y hy
          rcases List.mem_append.mp hy with hy | hy
          · by_cases hmx : mx0 < a
            · rw [if_pos hmx]
              exact le_of_lt (lt_of_le_of_lt (hmaxle y hy) hmx)
            · rw [if_neg hmx]
              exact hmaxle y hy
          · have hya : y = a := by simpa using hy
            rw [hya]
            by_cases hmx : mx0 < a
            · rw [if_pos hmx]
            · rw [if_neg hmx]
              simp
              omega

lemma stripQC_eq_self : ∀ (s : List Nat), ¬ [63, 44, 32] <:+: s → stripQC s = s := by
  have main : ∀ (n : Nat) (s : List Nat), s.length ≤ n → ¬ [63, 44, 32] <:+: s → stripQC s = s := by
    intro n
    induction n with
    | zero =>
      intro s hl _
      have : s = [] := List.length_eq_zero.mp (Nat.le_zero.mp hl)
      rw [this]
      rfl
    | succ n ih =>
      intro s hl h
      rw [stripQC.eq_def]
      split
      · rename_i rest
        exact absurd ⟨[], rest, by simp⟩ h
      · rename_i c cs hne
        have hcs : ¬ [63, 44, 32] <:+: cs := by
          intro ⟨u, v, huv⟩
          exact h ⟨c :: u, v, by rw [← huv]; simp⟩
        rw [ih cs (by simp at hl; omega) hcs]
      · rfl
  exact fun s => main s.length s le_rfl

lemma processPacket_preserves (cfg : Config) (st : SnifferState) (request : Bool)
    (data : List Nat) (now randn : Nat) (hr : st.rs.resbuffer = none) :
    (processPacket cfg st request data now randn).rs.resbuffer = none ∧
    (processPacket cfg st request data now randn).stats.desyncs = st.stats.desyncs ∧
    (st.rs.synced = true → (processPacket cfg st request data now randn).rs.synced = true) := by
  cases request
  · by_cases hs : st.rs.synced = true
    · cases hsent : st.rs.reqSent <;>
        cases hqd : st.rs.qdata <;>
          simp [processPacket, hr, hs, hsent, hqd]
    · simp at hs
      simp [processPacket, hr, hs]
  · by_cases hs : st.rs.synced = true
    · by_cases hm : (carvePacket data).1 = -1 <;>
        simp [processPacket, hr, hs, hm]
    · simp at hs
      by_cases h3 : (carvePacket data).1 = 3
      · simp [processPacket, hr, hs, h3]
      · have hb : ((carvePacket data).1 == (3 : Int)) = false := by
          simpa using h3
        simp [processPacket, hr, hs, hb]

lemma runPackets_preserves (cfg : Config) (ps : List PktIn) :
    ∀ st : SnifferState, st.rs.resbuffer = none →
      (runPackets cfg st ps).rs.resbuffer = none ∧
      (runPackets cfg st ps).stats.desyncs = st.stats.desyncs ∧
      (st.rs.synced = true → (runPackets cfg st ps).rs.synced = true) := by
  induction ps with
  | nil => intro st h; exact ⟨h, rfl, fun h' => h'⟩
  | cons p rest ih =>
    intro st h
    have hstep := processPacket_preserves cfg st p.request p.data p.now p.randn h
    have hrec := ih (processPacket cfg st p.request p.data p.now p.randn) hstep.1
    refine ⟨hrec.1, ?_, ?_⟩
    · rw [runPackets] at *
      simp only [List.foldl_cons]
      rw [hrec.2.1, hstep.2.1]
    · intro hsync
      rw [runPackets] at *
      simp only [List.foldl_cons]
      exact hrec.2.2 (hstep.2.2 hsync)

/-!  Claim theorems and witnesses. -/

/-- C1: carvePacket contract.  For every buffer [L0, L1, L2, seq, cmd,
P0..P_{L-2}, rest...] of bytes with L = L0 + (L1 << 8) + (L2 << 16) at
least 1 and buffer length at least L + 4, carvePacket returns (cmd,
[P0..P_{L-2}]) — the command byte excluded from the payload — and leaves
exactly rest in the buffer (the nil buffer when rest is empty); for every
buffer with length below 5, or length below L + 4, or L = 0, it returns the
incomplete marker (-1, nil) and does not mutate the buffer. -/
theorem carvePacket_contract :
    (∀ (L0 L1 L2 seq cmd : Nat) (P rest : List Nat), L0 < 256 → L1 < 256 → L2 < 256 →
      L0 + L1 * 256 + L2 * 65536 = P.length + 1 →
      carvePacket (L0 :: L1 :: L2 :: seq :: cmd :: (P ++ rest)) =
        ((cmd : Int), P, if rest = [] then none else some rest)) ∧
    (∀ buf : List Nat,
      buf.length < 5 ∨ carveSize buf = 0 ∨ buf.length < carveSize buf + 4 →
      carvePacket buf = (-1, [], some buf)) :=
  ⟨carvePacket_complete, carvePacket_incomplete⟩

/-- Witness for C1 at a concrete full frame and a concrete short buffer. -/
theorem carvePacket_contract_witness :
    carvePacket [2, 0, 0, 0, 3, 97, 9] = ((3 : Int), [97], some [9]) ∧
    carvePacket [1, 0, 0] = (-1, [], some [1, 0, 0]) := by
  constructor
  · have h := carvePacket_contract.1 2 0 0 0 3 [97] [9] (by decide) (by decide) (by decide)
      (by decide)
    simpa using h
  · exact carvePacket_contract.2 [1, 0, 0] (by decide)

/-- C2: golden canonicalization.  With the default flags, cleanupQuery maps
each golden input of the test suite to its expected output; in particular
the IN-list collapses to (?) and s2compiled survives intact. -/
theorem cleanupQuery_golden_test :
    cleanupQuery (strBytes "select * from table where col=1") =
      strBytes "select * from table where col=?" ∧
    cleanupQuery (strBytes "select * from table where col=\"hello\"") =
      strBytes "select * from table where col=?" ∧
    cleanupQuery (strBytes "select * from table where col=" ++ [39, 104, 101, 108, 108, 111, 39]) =
      strBytes "select * from table where col=?" ∧
    cleanupQuery (strBytes "select * from table where col=" ++ [39, 92, 39, 39]) =
      strBytes "select * from table where col=?" ∧
    cleanupQuery (strBytes "select * from table where x in (1, 2, " ++ [39, 102, 111, 111, 39] ++ strBytes ")") =
      strBytes "select * from table where x in (?)" ∧
    cleanupQuery (strBytes "select *     from      table") = strBytes "select * from table" ∧
    cleanupQuery (strBytes "select *\nfrom\n\n\n\r\ntable") = strBytes "select * from table" ∧
    cleanupQuery (strBytes "select * from s2compiled") = strBytes "select * from s2compiled" ∧
    cleanupQuery (strBytes "select * from table where col=\"" ++ [39] ++ strBytes "\"") =
      strBytes "select * from table where col=?" ∧
    cleanupQuery (strBytes "select * from table where col=" ++ [39, 34, 39]) =
      strBytes "select * from table where col=?" := by
  decide

/-- C3: synchronization gate.  On a flow that is not synced (and whose
response buffer is nil, as it is in every reachable state by the C5
invariant), a packet mutates the flow only when it is a request whose
carved frame type is COM_QUERY (3), in which case synced becomes true;
otherwise the entire state is unchanged except that both buffers are
cleared and the received-packet counter ticks: no timing is recorded, no
aggregation entry is created, and the desyncs counter is unchanged.  In
particular a flow whose first packet is a response stays unsynced with
desyncs unchanged. -/
theorem processPacket_sync_gate (cfg : Config) (st : SnifferState) (request : Bool)
    (data : List Nat) (now randn : Nat)
    (hs : st.rs.synced = false) (hr : st.rs.resbuffer = none) :
    ((request && ((carvePacket data).1 == 3)) = false →
      processPacket cfg st request data now randn =
        { st with
          rs := { st.rs with reqbuffer := none, resbuffer := none }
          stats := { st.stats with rcvd := st.stats.rcvd + 1 } }) ∧
    ((request && ((carvePacket data).1 == 3)) = true →
      (processPacket cfg st request data now randn).rs.synced = true) := by
  constructor
  · intro h
    cases request
    · simp [processPacket, hs, hr]
    · simp only [Bool.true_and] at h
      simp [processPacket, hs, hr, h]
  · intro h
    cases request
    · simp at h
    · simp only [Bool.true_and] at h
      have h3 : (carvePacket data).1 = 3 := eq_of_beq h
      simp [processPacket, hs, hr, h, h3]

/-- Witness for C3: a fresh flow receiving a response first keeps its state
except for the cleared buffers and the packet counter. -/
theorem processPacket_sync_gate_witness :
    processPacket cfgQonly stFresh false [1, 2, 3] 5 7 =
      { stFresh with
        rs := { stFresh.rs with reqbuffer := none, resbuffer := none }
        stats := { stFresh.stats with rcvd := stFresh.stats.rcvd + 1 } } :=
  (processPacket_sync_gate cfgQonly stFresh false [1, 2, 3] 5 7 rfl rfl).1 (by decide)

/-- C4 (amended): two requests with no intervening response.  On a synced
flow with req_sent_at still set and a nil response buffer, a second full
COM_QUERY request overwrites req_sent_at with its own timestamp, so only
the second latency can be recorded; the desyncs counter does NOT change
(the claim said it increments, but the response buffer is always nil —
every response clears it — so the pipelined-request desync branch cannot
fire), and no reservoir slot is written. -/
theorem processPacket_second_request (cfg : Config) (st : SnifferState) (data : List Nat)
    (now randn t0 : Nat)
    (hsync : st.rs.synced = true) (hres : st.rs.resbuffer = none)
    (hsent : st.rs.reqSent = some t0) (hq : (carvePacket data).1 = 3) :
    (processPacket cfg st true data now randn).rs.reqSent = some now ∧
    (processPacket cfg st true data now randn).stats.desyncs = st.stats.desyncs ∧
    (processPacket cfg st true data now randn).times = st.times ∧
    (processPacket cfg st true data now randn).rs.reqTimes = st.rs.reqTimes := by
  simp [processPacket, hsync, hres, hq]

/-- Counterexample for C4 as stated: a concrete synced flow sends a second
full COM_QUERY request while req_sent_at is set, and the desyncs counter
stays 0 instead of incrementing. -/
theorem second_request_no_desync :
    stC4a.rs.synced = true ∧ stC4a.rs.reqSent = some 100 ∧
    stC4b.rs.reqSent = some 200 ∧
    stC4a.stats.desyncs = 0 ∧ stC4b.stats.desyncs = 0 := by
  decide

/-- Witness for the amended C4 on the concrete two-request run. -/
theorem processPacket_second_request_witness :
    stC4b.rs.reqSent = some 200 ∧
    stC4b.stats.desyncs = stC4a.stats.desyncs ∧
    stC4b.times = stC4a.times ∧
    stC4b.rs.reqTimes = stC4a.rs.reqTimes := by
  have h := processPacket_second_request cfgQonly stC4a [2, 0, 0, 0, 3, 97] 200 1 100
    (by decide) (by decide) (by decide) (by decide)
  exact h

/-- C5: implicit invariant.  Over every sequence of packets processed from
a fresh flow, the resbuffer field stays nil (every response assigns nil and
no path assigns non-nil), hence the pipelined-response desync branch is
unreachable and stats.desyncs stays 0 forever; and once synced becomes true
it never reverts to false. -/
theorem resbuffer_always_nil (cfg : Config) (src srcip : List Nat) (ps : List PktIn) :
    (runPackets cfg (initState src srcip) ps).rs.resbuffer = none ∧
    (runPackets cfg (initState src srcip) ps).stats.desyncs = 0 ∧
    ∀ qs : List PktIn,
      (runPackets cfg (initState src srcip) ps).rs.synced = true →
      (runPackets cfg (runPackets cfg (initState src srcip) ps) qs).rs.synced = true := by
  have h := runPackets_preserves cfg ps (initState src srcip) rfl
  refine ⟨h.1, h.2.1, ?_⟩
  intro qs hsync
  exact (runPackets_preserves cfg qs _ h.1).2.2 hsync

/-- Witness for C5 on a concrete packet sequence that reaches the synced
state. -/
theorem resbuffer_always_nil_witness :
    (runPackets cfgQonly (initState [] []) [⟨true, [2, 0, 0, 0, 3, 97], 7, 0⟩]).rs.resbuffer =
      none ∧
    (runPackets cfgQonly (initState [] []) [⟨true, [2, 0, 0, 0, 3, 97], 7, 0⟩]).stats.desyncs = 0 ∧
    (runPackets cfgQonly (runPackets cfgQonly (initState [] []) [⟨true, [2, 0, 0, 0, 3, 97], 7, 0⟩])
      [⟨false, [5], 9, 1⟩]).rs.synced = true := by
  have h := resbuffer_always_nil cfgQonly [] [] [⟨true, [2, 0, 0, 0, 3, 97], 7, 0⟩]
  exact ⟨h.1, h.2.1, h.2.2 [⟨false, [5], 9, 1⟩] (by decide)⟩

/-- C6: F_ROUTE key assembly.  When the payload splits (on spaces, at most
5 parts) so that part 1 is /* and part 3 is */, the ROUTE item contributes
the part-2 suffix after the first colon if a colon is present, else part 2
itself; with no route comment it contributes "(unknown) " followed by the
canonicalized query; and format "#r" on the payload
SELECT /* web01:user_lookup */ * FROM u WHERE id=1 yields the key
user_lookup. -/
theorem froute_key (pdata : List Nat) :
    (∀ pre post : List Nat,
      4 ≤ (splitN pdata 32 5).length →
      (splitN pdata 32 5).getD 1 [] = strBytes "/*" →
      (splitN pdata 32 5).getD 3 [] = strBytes "*/" →
      (splitN pdata 32 5).getD 2 [] = pre ++ 58 :: post →
      pre.contains 58 = false →
      routeText pdata = post) ∧
    (4 ≤ (splitN pdata 32 5).length →
      (splitN pdata 32 5).getD 1 [] = strBytes "/*" →
      (splitN pdata 32 5).getD 3 [] = strBytes "*/" →
      ((splitN pdata 32 5).getD 2 []).contains 58 = false →
      routeText pdata = (splitN pdata 32 5).getD 2 []) ∧
    (¬(4 ≤ (splitN pdata 32 5).length ∧ (splitN pdata 32 5).getD 1 [] = strBytes "/*" ∧
        (splitN pdata 32 5).getD 3 [] = strBytes "*/") →
      routeText pdata = strBytes "(unknown) " ++ cleanupQuery pdata) ∧
    (∀ (rs : source) (dirty : Bool),
      evalFormat { format := parseFormat (strBytes "#r"), dirty := dirty } rs
        (strBytes "SELECT /* web01:user_lookup */ * FROM u WHERE id=1") =
          strBytes "user_lookup") := by
  refine ⟨?_, ?_, ?_, ?_⟩
  · intro pre post h1 h2 h3 h4 h5
    have hcont : ((splitN pdata 32 5).getD 2 []).contains 58 = true := by
      rw [h4]; simp
    rw [routeText, if_pos ⟨h1, h2, h3⟩, if_pos hcont, h4, splitN_colon pre post 58 h5]
    rfl
  · intro h1 h2 h3 h4
    rw [routeText, if_pos ⟨h1, h2, h3⟩, if_neg (by rw [h4]; simp)]
  · intro h
    rw [routeText, if_neg h]
  · intro rs dirty
    have hp : parseFormat (strBytes "#r") = [FormatItem.froute] := by decide
    rw [evalFormat, hp]
    simp only [List.map_cons, List.map_nil, evalItem, List.flatten]
    decide

/-- Witness for C6 on concrete payloads with and without a route comment. -/
theorem froute_key_witness :
    routeText (strBytes "a /* h:r */ b") = [114] ∧
    routeText (strBytes "nocomment") = strBytes "(unknown) " ++ cleanupQuery (strBytes "nocomment") := by
  constructor
  · exact (froute_key (strBytes "a /* h:r */ b")).1 [104] [114] (by decide) (by decide)
      (by decide) (by decide) (by decide)
  · exact (froute_key (strBytes "nocomment")).2.2.1 (by decide)

/-- C7: QUOTE tokenization.  For every input whose first byte is an
apostrophe (39) or a double quote (34), scanToken emits a QUOTE token that
cleanupQuery renders as "?", and its length is j + 2 where j is the first
position after the opener holding the delimiter not preceded by a backslash
(the scanner marks a byte escaped exactly when the byte before it is a
backslash, so a backslash escapes the one byte that follows it); when no
such position exists the token extends to the end of the input. -/
theorem scanToken_quote (delim : Nat) (cs : List Nat) (hd : delim = 39 ∨ delim = 34) :
    (scanToken (delim :: cs)).2 = TOKEN_QUOTE ∧
    (cleanupTokens (delim :: cs)).headD [] = [63] ∧
    ((∃ j, j < cs.length ∧ qclosed delim cs j ∧ (∀ k, k < j → ¬qclosed delim cs k) ∧
        (scanToken (delim :: cs)).1 = j + 2) ∨
      ((∀ k, k < cs.length → ¬qclosed delim cs k) ∧
        (scanToken (delim :: cs)).1 = cs.length + 1)) := by
  have hdn : delim ≠ 92 := by rcases hd with h | h <;> simp [h]
  have htail : scanTail delim cs = (scanQuote delim false cs, TOKEN_QUOTE) := by
    rw [scanTail, if_pos hd]
  have hst : scanToken (delim :: cs) = (scanQuote delim false cs + 1, TOKEN_QUOTE) := by
    rw [scanToken, htail]
  refine ⟨by rw [hst], ?_, ?_⟩
  · show (cleanupTokensF (delim :: cs).length (delim :: cs)).headD [] = [63]
    rw [List.length_cons, cleanupTokensF, htail]
    simp [tokenOut, TOKEN_QUOTE, TOKEN_WORD, TOKEN_OTHER, TOKEN_WHITESPACE]
  · rcases scanQuote_spec delim hdn cs false with ⟨j, hj, hcl, hmin, hlen⟩ | ⟨hnone, hlen⟩
    · left
      refine ⟨j, hj, (closedE_false_iff delim cs j).mp hcl, ?_, ?_⟩
      · intro k hk
        rw [← closedE_false_iff]
        exact hmin k hk
      · rw [hst, hlen]
    · right
      refine ⟨?_, ?_⟩
      · intro k hk
        rw [← closedE_false_iff]
        exact hnone k hk
      · rw [hst, hlen]

/-- Witness for C7 on a concrete quoted token with trailing bytes. -/
theorem scanToken_quote_witness :
    (scanToken (39 :: [97, 98, 39, 120])).2 = TOKEN_QUOTE ∧
    (cleanupTokens (39 :: [97, 98, 39, 120])).headD [] = [63] ∧
    ((∃ j, j < [97, 98, 39, 120].length ∧ qclosed 39 [97, 98, 39, 120] j ∧
        (∀ k, k < j → ¬qclosed 39 [97, 98, 39, 120] k) ∧
        (scanToken (39 :: [97, 98, 39, 120])).1 = j + 2) ∨
      ((∀ k, k < [97, 98, 39, 120].length → ¬qclosed 39 [97, 98, 39, 120] k) ∧
        (scanToken (39 :: [97, 98, 39, 120])).1 = [97, 98, 39, 120].length + 1)) :=
  scanToken_quote 39 [97, 98, 39, 120] (Or.inl rfl)

/-- C8: calculateTimes.  Zero slots are skipped; when every slot is zero
the result is (0, 0, 0); otherwise min is the smallest non-zero slot, max
the largest, avg the integer quotient of the sum of non-zero slots by their
count, each divided by 1e6 (nanoseconds to milliseconds, modelled as exact
rationals in place of float64). -/
theorem calculateTimes_spec (l : List Nat) :
    (nonzeroSlots l = [] → calculateTimes l = (0, 0, 0)) ∧
    (nonzeroSlots l ≠ [] →
      ∃ mn mx : Nat, mn ∈ nonzeroSlots l ∧ (∀ y ∈ nonzeroSlots l, mn ≤ y) ∧
        mx ∈ nonzeroSlots l ∧ (∀ y ∈ nonzeroSlots l, y ≤ mx) ∧
        calculateTimes l =
          ((mn : ℚ) / 1000000,
            (((nonzeroSlots l).sum / (nonzeroSlots l).length : Nat) : ℚ) / 1000000,
            (mx : ℚ) / 1000000)) := by
  obtain ⟨hc, ht, he, hn⟩ := calcFold_spec l
  constructor
  · intro h
    simp [calculateTimes, he h]
  · intro h
    obtain ⟨hhm, hminm, hminle, hmaxm, hmaxle⟩ := hn h
    refine ⟨_, _, hminm, hminle, hmaxm, hmaxle, ?_⟩
    simp only [calculateTimes]
    rw [hc, ht, if_pos (List.length_pos.mpr h)]

/-- Witness for C8 on a concrete reservoir with empty slots. -/
theorem calculateTimes_spec_witness :
    ∃ mn mx : Nat, mn ∈ nonzeroSlots [0, 5000000, 3000000, 0, 7000000] ∧
      (∀ y ∈ nonzeroSlots [0, 5000000, 3000000, 0, 7000000], mn ≤ y) ∧
      mx ∈ nonzeroSlots [0, 5000000, 3000000, 0, 7000000] ∧
      (∀ y ∈ nonzeroSlots [0, 5000000, 3000000, 0, 7000000], y ≤ mx) ∧
      calculateTimes [0, 5000000, 3000000, 0, 7000000] =
        ((mn : ℚ) / 1000000,
          (((nonzeroSlots [0, 5000000, 3000000, 0, 7000000]).sum /
            (nonzeroSlots [0, 5000000, 3000000, 0, 7000000]).length : Nat) : ℚ) / 1000000,
          (mx : ℚ) / 1000000) :=
  (calculateTimes_spec [0, 5000000, 3000000, 0, 7000000]).2 (by decide)

/-- Counterexample for C9 as stated: canonicalization is not idempotent.
For the query of bytes 49 39 39 44 32 44 32 (digit, empty quote, comma, space, comma, space) the
output is "?, " — made only of ?, OTHER and single-space tokens, as the
flatten equation shows — yet a second application removes the "?, "
occurrence created by the first pass and returns the empty string. -/
theorem cleanupQuery_not_idempotent :
    cleanupQuery (strBytes "1" ++ [39, 39] ++ strBytes ", , ") = strBytes "?, " ∧
    cleanupQuery (cleanupQuery (strBytes "1" ++ [39, 39] ++ strBytes ", , ")) = [] ∧
    cleanupQuery (cleanupQuery (strBytes "1" ++ [39, 39] ++ strBytes ", , ")) ≠
      cleanupQuery (strBytes "1" ++ [39, 39] ++ strBytes ", , ") ∧
    (cleanupTokens (strBytes "?, ")).flatten = strBytes "?, " := by
  decide

/-- C9 (amended): canonicalizer fixed points.  A string whose tokens re-emit
it verbatim (so its tokens are among ?, WORD, OTHER and single spaces) is a
fixed point of cleanupQuery provided it does not contain the substring
"?, " and does not match the route-comment rewrite pattern; the unconditional
idempotence of the claim fails because a removal of "?, " can create a new
occurrence by juxtaposition, and the route rewrite can strip again. -/
theorem cleanupQuery_fixed_point (s : List Nat)
    (htok : (cleanupTokens s).flatten = s)
    (hroute : ¬ routeCond s)
    (hqc : ¬ strBytes "?, " <:+: s) :
    cleanupQuery s = s := by
  rw [cleanupQuery, htok, routeRewrite, if_neg hroute]
  exact stripQC_eq_self s (by simpa using hqc)

/-- Witness for the amended C9 on a concrete canonical output. -/
theorem cleanupQuery_fixed_point_witness :
    cleanupQuery (strBytes "select * from t where x = ?") =
      strBytes "select * from t where x = ?" :=
  cleanupQuery_fixed_point (strBytes "select * from t where x = ?")
    (by decide) (by decide) (by decide)

/-- C10: parseFormat fallback.  A format string that is empty or all
whitespace is replaced by "#b:#k"; since b and k are not recognized tags
the compiled program is the single literal "#b:#k" with no action tags, so
every request maps to that same constant aggregation key. -/
theorem parseFormat_wsfallback (s : List Nat) (h : trimSpace s = []) :
    parseFormat s = [FormatItem.lit (strBytes "#b:#k")] ∧
    ∀ (rs : source) (pdata : List Nat) (dirty : Bool),
      evalFormat { format := parseFormat s, dirty := dirty } rs pdata = strBytes "#b:#k" := by
  have hp : parseFormat s = [FormatItem.lit (strBytes "#b:#k")] := by
    unfold parseFormat
    rw [h]
    decide
  refine ⟨hp, ?_⟩
  intro rs pdata dirty
  rw [evalFormat, hp]
  simp [evalItem]

/-- Witness for C10 at a concrete all-whitespace format string. -/
theorem parseFormat_wsfallback_witness :
    parseFormat (strBytes " ") = [FormatItem.lit (strBytes "#b:#k")] ∧
    evalFormat { format := parseFormat (strBytes " "), dirty := false } (initSource [] []) [] =
      strBytes "#b:#k" := by
  have h := parseFormat_wsfallback (strBytes " ") (by decide)
  exact ⟨h.1, h.2 (initSource [] []) [] false⟩
